import Mathlib

/-!
Verification development for the `bevy_prototype_lyon` shape plugin
(`src/plugin.rs`).  The plugin converts declarative 2D shape descriptions
into renderable triangle meshes in a deferred pass: `ShapeSprite::draw`
builds a `ShapeDescriptor`, and the `shapesprite_maker` system later
tessellates every entity's descriptor, registers a mesh asset and replaces
the descriptor with a `SpriteBundle`.

External collaborators (the `lyon` tessellators, the bevy asset registry,
`Transform`, handles) are modelled at their interface boundary; the code of
`plugin.rs` itself is embedded faithfully below.
-/

namespace BevyLyon

/-- Entity identifiers of the host ECS (opaque). -/
abbrev Entity := Nat

/-- Model of a lyon `Path`: an opaque, immutable outline description built by
a shape implementation.  The event list stands for the path's curve/polygon
data; only identity of paths matters to this core. -/
structure Path where
  events : List Nat
deriving DecidableEq, Repr

/-- Model of lyon `FillOptions`: opaque tuning parameters carried inside
`TessellationMode::Fill` and forwarded to the fill tessellator. -/
structure FillOptions where
  tolerance : Nat
deriving DecidableEq, Repr

/-- Model of lyon `StrokeOptions`: opaque tuning parameters carried inside
`TessellationMode::Stroke` and forwarded to the stroke tessellator. -/
structure StrokeOptions where
  line_width : Nat
deriving DecidableEq, Repr

/-- `TessellationMode` (plugin.rs lines 41-46): determines if a shape must be
filled or stroked, carrying the corresponding options. -/
inductive TessellationMode where
  | Fill : FillOptions → TessellationMode
  | Stroke : StrokeOptions → TessellationMode
deriving DecidableEq, Repr

/-- Model of a lyon `TessellationError` (the error of `tessellate_path`,
unwrapped in plugin.rs lines 113 and 123). -/
structure TessellationError where
  code : Nat
deriving DecidableEq, Repr

/-- Modelled from the spec: `Buffers` (the GeometryBuffer) is defined in the
crate root, which is not under src/; only its use in `plugin.rs` is visible.
Per the spec it is vertex/index storage: "vertices: ordered sequence of
(position, attributes); indices: ordered sequence of vertex references
forming triangles".  Vertex positions are modelled as integer pairs (the
`VertexConstructor` conversion from tessellator output, also in the crate
root, is folded into the tessellator models below). -/
structure Buffers where
  vertices : List (Int × Int)
  indices : List Nat
deriving DecidableEq, Repr

/-- `Buffers::new()` as used at plugin.rs line 102: a fresh empty buffer. -/
def Buffers.new : Buffers := ⟨[], []⟩

/-- Model of a lyon `FillTessellator` at the interface boundary given by the
spec: a reusable, stateful engine whose `tessellate_path` "mutates only its
own internal scratch state"; the produced geometry depends only on the path
and the options (scratch is reused for efficiency only).  `scratch` models
the internal scratch state, `run` the input/output behaviour of the fill
algorithm, which may fail with a `TessellationError` on degenerate input. -/
structure FillTessellator where
  scratch : Nat
  run : Path → FillOptions → Except TessellationError Buffers

/-- Model of a lyon `StrokeTessellator`, analogous to `FillTessellator`. -/
structure StrokeTessellator where
  scratch : Nat
  run : Path → StrokeOptions → Except TessellationError Buffers

/-- `FillTessellator::tessellate_path` writing through a `BuffersBuilder`
into a fresh `Buffers` (plugin.rs lines 106-113): returns the tessellation
result and the engine with mutated scratch state. -/
def FillTessellator.tessellate_path (t : FillTessellator) (path : Path)
    (options : FillOptions) : Except TessellationError Buffers × FillTessellator :=
  (t.run path options, { t with scratch := t.scratch + 1 })

/-- `StrokeTessellator::tessellate_path` (plugin.rs lines 116-123). -/
def StrokeTessellator.tessellate_path (t : StrokeTessellator) (path : Path)
    (options : StrokeOptions) : Except TessellationError Buffers × StrokeTessellator :=
  (t.run path options, { t with scratch := t.scratch + 1 })

/-- `Tessellator` (plugin.rs lines 48-52): a couple of lyon fill and stroke
tessellators, stored as a resource and reused across every call. -/
structure Tessellator where
  fill : FillTessellator
  stroke : StrokeTessellator

/-- `Tessellator::new()` (plugin.rs lines 57-62), parametrised by the
behaviour of the two freshly constructed lyon engines. -/
def Tessellator.new (fillRun : Path → FillOptions → Except TessellationError Buffers)
    (strokeRun : Path → StrokeOptions → Except TessellationError Buffers) : Tessellator :=
  { fill := { scratch := 0, run := fillRun }
  , stroke := { scratch := 0, run := strokeRun } }

/-- Model of a concrete type implementing the `ShapeSprite` trait: its value
determines the `Path` that its pure `generate_path(&self)` method builds
(e.g. the doc example `Rectangle` builds a rectangle path from its width and
height). -/
structure ShapeSprite where
  pathOf : Path
deriving DecidableEq, Repr

/-- `ShapeSprite::generate_path` (plugin.rs line 188): generates a lyon
`Path` for the shape; a pure method of the shape value. -/
def ShapeSprite.generate_path (s : ShapeSprite) : Path := s.pathOf

/-- Model of bevy `Handle<ColorMaterial>`: an opaque, cloneable reference. -/
structure ColorMaterialHandle where
  id : Nat
deriving DecidableEq, Repr

/-- Model of bevy `Handle<Mesh>`: an opaque reference handed out by the
asset registry. -/
structure MeshHandle where
  id : Nat
deriving DecidableEq, Repr

/-- Model of bevy `Transform`: an opaque spatial transform, copied around
unchanged by this core. -/
structure Transform where
  raw : Nat
deriving DecidableEq, Repr

/-- Model of bevy `Vec2`; the only value this core builds is
`Vec2::new(1.0, 1.0)`, whose components are exactly representable, so
integer components suffice. -/
structure Vec2 where
  x : Int
  y : Int
deriving DecidableEq, Repr

/-- Model of bevy `Sprite`: the `size` field set at plugin.rs line 131 plus
the remaining fields filled by `..Default::default()`, collapsed into one
opaque `rest` component whose default is `0`. -/
structure Sprite where
  size : Vec2
  rest : Nat
deriving DecidableEq, Repr

/-- Model of bevy `SpriteBundle`: the four fields set at plugin.rs lines
127-135 plus the remaining components filled by `..Default::default()`,
collapsed into one opaque `rest` component whose default is `0`. -/
structure SpriteBundle where
  material : ColorMaterialHandle
  mesh : MeshHandle
  sprite : Sprite
  transform : Transform
  rest : Nat
deriving DecidableEq, Repr

/-- Modelled from the spec: `build_mesh` is defined in the crate root, which
is not under src/.  Spec: "Build a mesh asset from the resulting
GeometryBuffer"; the mesh carries the buffer's geometry unchanged. -/
structure Mesh where
  geometry : Buffers
deriving DecidableEq, Repr

/-- Modelled from the spec: `build_mesh(&buffers)` (crate root, used at
plugin.rs line 129). -/
def build_mesh (buffers : Buffers) : Mesh := ⟨buffers⟩

/-- Model of bevy `Assets<Mesh>` at the interface given by the spec:
`register(GeometryBuffer) -> MeshHandle`, infallible, handing out a fresh
opaque handle per registration.  `store` associates handle ids to meshes,
`nextId` is the next fresh id. -/
structure Assets where
  store : List (Nat × Mesh)
  nextId : Nat
deriving DecidableEq, Repr

/-- `Assets::add` (plugin.rs line 129): registers a mesh and returns a fresh
handle to it. -/
def Assets.add (a : Assets) (m : Mesh) : MeshHandle × Assets :=
  (⟨a.nextId⟩, ⟨a.store ++ [(a.nextId, m)], a.nextId + 1⟩)

/-- Looking a handle up in the registry (interface of `Assets<Mesh>`). -/
def Assets.get (a : Assets) (h : MeshHandle) : Option Mesh :=
  (a.store.find? (fun p => p.1 == h.id)).map Prod.snd

/-- Well-formedness of the registry model: every stored id was handed out
(below `nextId`) and ids are not duplicated. -/
def Assets.WF (a : Assets) : Prop :=
  (∀ p ∈ a.store, p.1 < a.nextId) ∧ (a.store.map Prod.fst).Nodup

/-- `ShapeDescriptor` (plugin.rs lines 84-89): the intermediate
representation holding all the data to create a `SpriteBundle` with a custom
mesh.  `shape` is the boxed shape object owned by the descriptor. -/
structure ShapeDescriptor where
  shape : ShapeSprite
  material : ColorMaterialHandle
  mode : TessellationMode
  transform : Transform
deriving DecidableEq, Repr

/-- `ShapeSprite::draw` (plugin.rs lines 195-212): clones the shape into a
boxed, owned shape object (value semantics: the clone of a plain-data shape
equals the shape), clones the material handle, and moves mode and transform
into a fresh descriptor.  The Rust method returns the single-element bundle
tuple `(ShapeDescriptor,)`, modelled as the descriptor itself; it takes
`&self` and mutates nothing. -/
def ShapeSprite.draw (self : ShapeSprite) (material : ColorMaterialHandle)
    (mode : TessellationMode) (transform : Transform) : ShapeDescriptor :=
  { shape := self, material := material, mode := mode, transform := transform }

/-- The mode dispatch of `shapesprite_maker` (plugin.rs lines 104-125):
`Fill` routes the path to the fill tessellator, `Stroke` to the stroke
tessellator, forwarding the options carried in the mode; returns the
tessellation result for the fresh buffer together with the updated
tessellator resource. -/
def tessellateDispatch (tess : Tessellator) (path : Path)
    (mode : TessellationMode) : Except TessellationError Buffers × Tessellator :=
  match mode with
  | .Fill options =>
    let r := tess.fill.tessellate_path path options
    (r.1, { tess with fill := r.2 })
  | .Stroke options =>
    let r := tess.stroke.tessellate_path path options
    (r.1, { tess with stroke := r.2 })

/-- The geometry produced for one descriptor: `generate_path` on the owned
shape, then tessellation dispatched on the descriptor's mode
(plugin.rs lines 100-125). -/
def buffersOf (tess : Tessellator) (desc : ShapeDescriptor) :
    Except TessellationError Buffers :=
  (tessellateDispatch tess desc.shape.generate_path desc.mode).1

/-- One iteration of the `shapesprite_maker` loop body (plugin.rs lines
100-136): generate the path, tessellate it into a fresh buffer (the
`.unwrap()` panic on tessellation failure is modelled as `Except.error`),
register the built mesh, and produce the `SpriteBundle` with the
descriptor's material and transform, the fresh mesh handle and the
hard-coded sprite size `Vec2::new(1.0, 1.0)`. -/
def materializeOne (tess : Tessellator) (meshes : Assets)
    (desc : ShapeDescriptor) :
    Except TessellationError (SpriteBundle × Tessellator × Assets) :=
  let r := tessellateDispatch tess desc.shape.generate_path desc.mode
  match r.1 with
  | .error e => .error e
  | .ok buffers =>
    let hm := meshes.add (build_mesh buffers)
    .ok ( { material := desc.material
          , mesh := hm.1
          , sprite := { size := { x := 1, y := 1 }, rest := 0 }
          , transform := desc.transform
          , rest := 0 }
        , r.2, hm.2)

/-- The state of one entity's components, as far as this core touches them:
an optional `ShapeDescriptor`, an optional `SpriteBundle`, and `other`, an
opaque stand-in for every component this core does not know about. -/
structure EntityState where
  descriptor : Option ShapeDescriptor
  bundle : Option SpriteBundle
  other : Nat
deriving DecidableEq, Repr

/-- The world as this core sees it: entities paired with their states. -/
abbrev World := List (Entity × EntityState)

/-- The system's query `Query<(Entity, &ShapeDescriptor)>` (plugin.rs line
97): every entity currently holding a descriptor, in enumeration order. -/
def queryDescriptors (world : World) : List (Entity × ShapeDescriptor) :=
  world.filterMap (fun es => es.2.descriptor.map (fun d => (es.1, d)))

/-- The `shapesprite_maker` loop (plugin.rs lines 99-140) over the queried
descriptors: threads the tessellator resource and the mesh assets through
each iteration and collects the buffered commands (the `SpriteBundle` to
insert on each entity).  The `.unwrap()` on a tessellation failure panics,
aborting the whole pass: modelled by the `Except.error` result. -/
def runMaker (tess : Tessellator) (meshes : Assets)
    (pending : List (Entity × ShapeDescriptor)) :
    Except TessellationError
      (List (Entity × SpriteBundle) × Tessellator × Assets) :=
  match pending with
  | [] => .ok ([], tess, meshes)
  | (e, d) :: rest =>
    match materializeOne tess meshes d with
    | .error err => .error err
    | .ok (b, tess2, meshes2) =>
      match runMaker tess2 meshes2 rest with
      | .error err => .error err
      | .ok (cmds, tess3, meshes3) => .ok ((e, b) :: cmds, tess3, meshes3)

/-- Applying the buffered commands of the pass (plugin.rs lines 138-139,
applied by bevy at the end of the stage): for each entity with a produced
bundle, `commands.insert(entity, sprite_bundle)` attaches the bundle and
`commands.remove_one::<ShapeDescriptor>(entity)` removes the descriptor, in
one world update; every other entity is untouched. -/
def applyCommands (cmds : List (Entity × SpriteBundle)) (world : World) : World :=
  world.map (fun es =>
    match cmds.find? (fun c => c.1 == es.1) with
    | some c => (es.1, { es.2 with bundle := some c.2, descriptor := none })
    | none => es)

/-- The `shapesprite_maker` system (plugin.rs lines 93-141): one
materialization pass.  On success it returns the updated world together with
the threaded tessellator resource and mesh assets; a tessellation failure
anywhere panics the system, so no command is ever applied — modelled by the
`Except.error` result carrying no world. -/
def shapesprite_maker (tess : Tessellator) (meshes : Assets) (world : World) :
    Except TessellationError (World × Tessellator × Assets) :=
  match runMaker tess meshes (queryDescriptors world) with
  | .error e => .error e
  | .ok (cmds, tess2, meshes2) => .ok (applyCommands cmds world, tess2, meshes2)

/-- Two tessellator resources have the same input/output behaviour (they may
differ in scratch state): the relation between the resource before and after
any number of tessellation calls. -/
def runsEq (t t2 : Tessellator) : Prop :=
  t2.fill.run = t.fill.run ∧ t2.stroke.run = t.stroke.run

/-- A sequence of tessellation calls threaded through the resource,
keeping only the resulting resource state. -/
def tessellateMany (t : Tessellator) (calls : List (Path × TessellationMode)) :
    Tessellator :=
  calls.foldl (fun acc pm => (tessellateDispatch acc pm.1 pm.2).2) t

/-- Correspondence between a queried `(entity, descriptor)` pair and the
buffered `(entity, bundle)` command the pass produced for it: same entity;
the entity's own geometry tessellated successfully and — registered under
the bundle's fresh mesh handle (an id of at least `lo`, the registry's
counter at the start of the pass) — is stored in the final registry `mFin`;
material and transform are copied from the descriptor and the sprite sizing
is the hard-coded unit size. -/
def CmdMatches (t : Tessellator) (mFin : Assets) (lo : Nat)
    (p : Entity × ShapeDescriptor) (q : Entity × SpriteBundle) : Prop :=
  q.1 = p.1 ∧ ∃ bufs, buffersOf t p.2 = Except.ok bufs ∧
    q.2.material = p.2.material ∧ q.2.transform = p.2.transform ∧
    q.2.sprite = ⟨⟨1, 1⟩, 0⟩ ∧ q.2.rest = 0 ∧
    (q.2.mesh.id, build_mesh bufs) ∈ mFin.store ∧ lo ≤ q.2.mesh.id

/-! Concrete sample data, used to evaluate the development on closed runs: a
fill engine that fails on an empty (degenerate) path and otherwise produces
a fixed quad, and a stroke engine producing a fixed segment. -/

/-- Sample geometry produced by the sample fill engine: a quad of four
vertices and two triangles. -/
def bufFillEx : Buffers := ⟨[(0, 0), (1, 0), (1, 1), (0, 1)], [0, 1, 2, 0, 2, 3]⟩

/-- Sample fill-engine behaviour: a degenerate (empty) path cannot be
triangulated and yields a `TessellationError`; anything else fills to
`bufFillEx`. -/
def fillRunEx : Path → FillOptions → Except TessellationError Buffers :=
  fun p _ => if p.events.isEmpty then Except.error ⟨7⟩ else Except.ok bufFillEx

/-- Sample stroke-engine behaviour: strokes any path to a fixed segment. -/
def strokeRunEx : Path → StrokeOptions → Except TessellationError Buffers :=
  fun _ _ => Except.ok ⟨[(0, 0), (1, 1)], [0, 1]⟩

/-- Sample tessellator resource, as built by `Tessellator::new()`. -/
def tEx : Tessellator := Tessellator.new fillRunEx strokeRunEx

/-- Sample empty mesh registry. -/
def mEx : Assets := ⟨[], 0⟩

/-- A sample shape with a non-degenerate path. -/
def shapeEx : ShapeSprite := ⟨⟨[1, 2]⟩⟩

/-- A sample degenerate shape (zero-size: empty path). -/
def shapeDegEx : ShapeSprite := ⟨⟨[]⟩⟩

/-- Sample material handle. -/
def matEx : ColorMaterialHandle := ⟨5⟩

/-- Sample (identity) transform. -/
def trEx : Transform := ⟨0⟩

/-- Sample fill options. -/
def foEx : FillOptions := ⟨3⟩

/-- Sample descriptor, built by `draw` on the sample shape. -/
def dEx : ShapeDescriptor := shapeEx.draw matEx (.Fill foEx) trEx

/-- Sample descriptor for the degenerate shape. -/
def dDegEx : ShapeDescriptor := shapeDegEx.draw matEx (.Fill foEx) trEx

/-- Sample world: entity 0 and entity 2 hold identical descriptors, entity 1
holds no descriptor. -/
def wEx : World :=
  [(0, ⟨some dEx, none, 11⟩), (1, ⟨none, none, 22⟩), (2, ⟨some dEx, none, 33⟩)]

/-- The sample world under the reversed enumeration order. -/
def wRevEx : World :=
  [(2, ⟨some dEx, none, 33⟩), (1, ⟨none, none, 22⟩), (0, ⟨some dEx, none, 11⟩)]

/-- Sample world containing a degenerate descriptor (entity 0) next to a
healthy one (entity 1). -/
def wErrEx : World := [(0, ⟨some dDegEx, none, 1⟩), (1, ⟨some dEx, none, 2⟩)]

/-- The bundle the pass builds from `dEx` when handed mesh handle `h`. -/
def bundleEx (h : Nat) : SpriteBundle := ⟨matEx, ⟨h⟩, ⟨⟨1, 1⟩, 0⟩, trEx, 0⟩

/-- The mesh registered for `dEx` by the sample fill engine. -/
def meshEx : Mesh := build_mesh bufFillEx

/-- Expected world after one pass over `wEx`. -/
def wOutEx : World :=
  [ (0, ⟨none, some (bundleEx 0), 11⟩), (1, ⟨none, none, 22⟩)
  , (2, ⟨none, some (bundleEx 1), 33⟩) ]

/-- Expected tessellator resource after one pass over `wEx` (two fill
calls). -/
def tOutEx : Tessellator :=
  { fill := { scratch := 2, run := fillRunEx }
  , stroke := { scratch := 0, run := strokeRunEx } }

/-- Expected mesh registry after one pass over `wEx`. -/
def mOutEx : Assets := ⟨[(0, meshEx), (1, meshEx)], 2⟩

/-- Expected world after one pass over `wRevEx`: same per-entity mesh
contents, handles assigned in the reversed enumeration order. -/
def wOutRevEx : World :=
  [ (2, ⟨none, some (bundleEx 0), 33⟩), (1, ⟨none, none, 22⟩)
  , (0, ⟨none, some (bundleEx 1), 11⟩) ]

end BevyLyon

namespace BevyLyon

/-! Basic lemmas about the tessellator resource. -/

theorem runsEq_refl (t : Tessellator) : runsEq t t := ⟨rfl, rfl⟩

theorem runsEq_trans {t a b : Tessellator} (h1 : runsEq t a) (h2 : runsEq a b) :
    runsEq t b := ⟨h2.1.trans h1.1, h2.2.trans h1.2⟩

/-- A tessellation call changes only scratch state: the resulting resource
has the same input/output behaviour. -/
theorem dispatch_runsEq (t : Tessellator) (p : Path) (mode : TessellationMode) :
    runsEq t (tessellateDispatch t p mode).2 := by
  cases mode <;> exact ⟨rfl, rfl⟩

/-- The geometry produced by a tessellation call depends only on the path,
the mode and the engines' behaviour — not on scratch state. -/
theorem dispatch_fst_congr {t t2 : Tessellator} (h : runsEq t t2) (p : Path)
    (mode : TessellationMode) :
    (tessellateDispatch t2 p mode).1 = (tessellateDispatch t p mode).1 := by
  cases mode <;>
    simp [tessellateDispatch, FillTessellator.tessellate_path,
      StrokeTessellator.tessellate_path, h.1, h.2]

theorem buffersOf_congr {t t2 : Tessellator} (h : runsEq t t2)
    (d : ShapeDescriptor) : buffersOf t2 d = buffersOf t d :=
  dispatch_fst_congr h _ _

theorem tessellateMany_runsEq (t : Tessellator)
    (calls : List (Path × TessellationMode)) : runsEq t (tessellateMany t calls) := by
  induction calls generalizing t with
  | nil => exact runsEq_refl t
  | cons hd tl ih =>
    exact runsEq_trans (dispatch_runsEq t hd.1 hd.2) (ih _)

/-! Lemmas about the mesh registry model. -/

theorem assoc_find?_eq {l : List (Nat × Mesh)} {k : Nat} {v : Mesh}
    (hnd : (l.map Prod.fst).Nodup) (hmem : (k, v) ∈ l) :
    l.find? (fun p => p.1 == k) = some (k, v) := by
  induction l with
  | nil => cases hmem
  | cons hd tl ih =>
    rw [List.map_cons, List.nodup_cons] at hnd
    rcases List.mem_cons.mp hmem with heq | htl
    · rw [List.find?_cons_of_pos]
      · rw [heq]
      · subst heq; simp
    · have hk : k ∈ tl.map Prod.fst := List.mem_map_of_mem Prod.fst htl
      have hne : hd.1 ≠ k := fun habs => hnd.1 (habs ▸ hk)
      rw [List.find?_cons_of_neg]
      · exact ih hnd.2 htl
      · simpa using hne

theorem Assets.get_of_mem {a : Assets} (hwf : a.WF) {k : Nat} {v : Mesh}
    (hmem : (k, v) ∈ a.store) : a.get ⟨k⟩ = some v := by
  unfold Assets.get
  rw [assoc_find?_eq hwf.2 hmem]
  rfl

theorem Assets.get_none_of_ge {a : Assets}
    (hb : ∀ p ∈ a.store, p.1 < a.nextId) {k : Nat} (hk : a.nextId ≤ k) :
    a.get ⟨k⟩ = none := by
  unfold Assets.get
  have : a.store.find? (fun p => p.1 == k) = none := by
    rw [List.find?_eq_none]
    intro p hp
    have := hb p hp
    simp only [beq_iff_eq]
    omega
  rw [this]
  rfl

theorem Assets.add_WF {a : Assets} (hwf : a.WF) (m : Mesh) :
    ((a.add m).2).WF := by
  constructor
  · intro p hp
    simp only [Assets.add, List.mem_append, List.mem_singleton] at hp
    rcases hp with h | h
    · exact Nat.lt_succ_of_lt (hwf.1 p h)
    · simp [h, Assets.add]
  · have hnotin : a.nextId ∉ a.store.map Prod.fst := by
      intro habs
      rcases List.mem_map.mp habs with ⟨p, hp, hfst⟩
      exact absurd (hwf.1 p hp) (by omega)
    simp only [Assets.add, List.map_append, List.map_cons, List.map_nil]
    exact List.Nodup.append hwf.2 (List.nodup_singleton _)
      (by simpa [List.disjoint_singleton] using hnotin)

/-! Lemmas about the query and association by entity id. -/

theorem mem_queryDescriptors {w : World} {e : Entity} {d : ShapeDescriptor} :
    (e, d) ∈ queryDescriptors w ↔ ∃ st, (e, st) ∈ w ∧ st.descriptor = some d := by
  constructor
  · intro h
    rcases List.mem_filterMap.mp h with ⟨⟨e2, st⟩, hmem, hf⟩
    rcases Option.map_eq_some'.mp hf with ⟨d2, hd2, heq⟩
    injection heq with h1 h2
    subst h1; subst h2
    exact ⟨st, hmem, hd2⟩
  · rintro ⟨st, hmem, hd⟩
    exact List.mem_filterMap.mpr ⟨(e, st), hmem, by rw [hd]; rfl⟩

theorem queryDescriptors_fst_sublist (w : World) :
    List.Sublist ((queryDescriptors w).map Prod.fst) (w.map Prod.fst) := by
  induction w with
  | nil => simp [queryDescriptors]
  | cons hd tl ih =>
    cases hdesc : hd.2.descriptor with
    | none =>
      simp only [queryDescriptors, List.filterMap_cons, hdesc, Option.map_none',
        List.map_cons]
      exact ih.cons hd.1
    | some d =>
      simp only [queryDescriptors, List.filterMap_cons, hdesc, Option.map_some',
        List.map_cons]
      exact ih.cons₂ hd.1

theorem pair_eq_of_nodup_fst {β : Type} {l : List (Nat × β)}
    (hnd : (l.map Prod.fst).Nodup) {e : Nat} {a b : β}
    (ha : (e, a) ∈ l) (hb : (e, b) ∈ l) : a = b := by
  induction l with
  | nil => cases ha
  | cons hd tl ih =>
    rw [List.map_cons, List.nodup_cons] at hnd
    rcases List.mem_cons.mp ha with h1 | h1 <;> rcases List.mem_cons.mp hb with h2 | h2
    · rw [← h1] at h2
      injection h2 with h3 h4
      exact h4.symm
    · exfalso
      apply hnd.1
      have : e ∈ tl.map Prod.fst := List.mem_map_of_mem Prod.fst h2
      rwa [show hd.1 = e by rw [← h1]]
    · exfalso
      apply hnd.1
      have : e ∈ tl.map Prod.fst := List.mem_map_of_mem Prod.fst h1
      rwa [show hd.1 = e by rw [← h2]]
    · exact ih hnd.2 h1 h2

end BevyLyon

namespace BevyLyon

/-- Closed form of one loop iteration: on tessellation success the produced
bundle copies the descriptor's material and transform, takes the fresh mesh
handle `m.nextId` and the hard-coded unit sprite size; the built mesh is
appended to the registry and the tessellator keeps only new scratch state. -/
theorem materializeOne_eq (t : Tessellator) (m : Assets) (d : ShapeDescriptor) :
    materializeOne t m d =
      match buffersOf t d with
      | .error e => .error e
      | .ok bufs =>
        .ok ( { material := d.material, mesh := ⟨m.nextId⟩
              , sprite := { size := { x := 1, y := 1 }, rest := 0 }
              , transform := d.transform, rest := 0 }
            , (tessellateDispatch t d.shape.generate_path d.mode).2
            , { store := m.store ++ [(m.nextId, build_mesh bufs)]
              , nextId := m.nextId + 1 } ) := rfl

/-- Weakening of the command correspondence: scratch-state changes of the
tessellator and a smaller lower bound on fresh handles are harmless. -/
theorem CmdMatches_weaken {t t2 : Tessellator} {mFin : Assets} {lo lo2 : Nat}
    (hre : runsEq t t2) (hlo : lo ≤ lo2)
    {p : Entity × ShapeDescriptor} {q : Entity × SpriteBundle}
    (h : CmdMatches t2 mFin lo2 p q) : CmdMatches t mFin lo p q := by
  obtain ⟨h1, bufs, hb, h3, h4, h5, h6, h7, h8⟩ := h
  rw [buffersOf_congr hre] at hb
  exact ⟨h1, bufs, hb, h3, h4, h5, h6, h7, le_trans hlo h8⟩

theorem forall₂_mem_left {α β : Type} {R : α → β → Prop} {l1 : List α}
    {l2 : List β} (h : List.Forall₂ R l1 l2) {x : α} (hx : x ∈ l1) :
    ∃ y ∈ l2, R x y := by
  induction h with
  | nil => cases hx
  | cons hab htl ih =>
    rcases List.mem_cons.mp hx with rfl | hx2
    · exact ⟨_, List.mem_cons_self _ _, hab⟩
    · obtain ⟨y, hy, hxy⟩ := ih hx2
      exact ⟨y, List.mem_cons_of_mem _ hy, hxy⟩

theorem forall₂_mem_right {α β : Type} {R : α → β → Prop} {l1 : List α}
    {l2 : List β} (h : List.Forall₂ R l1 l2) {y : β} (hy : y ∈ l2) :
    ∃ x ∈ l1, R x y := by
  induction h with
  | nil => cases hy
  | cons hab htl ih =>
    rcases List.mem_cons.mp hy with rfl | hy2
    · exact ⟨_, List.mem_cons_self _ _, hab⟩
    · obtain ⟨x, hx, hxy⟩ := ih hy2
      exact ⟨x, List.mem_cons_of_mem _ hx, hxy⟩

/-- Looking the command buffered for entity `e` up by `find?`: with
duplicate-free entity ids it is exactly the command matched to `e`'s queried
descriptor. -/
theorem forall₂_find_of_nodup {t : Tessellator} {mFin : Assets} {lo : Nat}
    {pending : List (Entity × ShapeDescriptor)}
    {c : List (Entity × SpriteBundle)}
    (h : List.Forall₂ (CmdMatches t mFin lo) pending c)
    (hnd : (pending.map Prod.fst).Nodup) {e : Entity} {d : ShapeDescriptor}
    (hmem : (e, d) ∈ pending) :
    ∃ b, c.find? (fun q => q.1 == e) = some (e, b) ∧
      CmdMatches t mFin lo (e, d) (e, b) := by
  induction h with
  | nil => cases hmem
  | @cons p q ps qs hpq htl ih =>
    rw [List.map_cons, List.nodup_cons] at hnd
    rcases List.mem_cons.mp hmem with heq | htlmem
    · have hq1 : q.1 = e := by rw [hpq.1, ← heq]
      have hqeta : (e, q.2) = q := by rw [← hq1]
      refine ⟨q.2, ?_, ?_⟩
      · rw [List.find?_cons_of_pos _ (by simp [hq1])]
        rw [hqeta]
      · rw [heq, hqeta]
        exact hpq
    · have he : e ∈ ps.map Prod.fst := List.mem_map_of_mem Prod.fst htlmem
      have hne : ¬(q.1 == e) = true := by
        rw [hpq.1]
        simp only [beq_iff_eq]
        intro habs
        exact hnd.1 (habs ▸ he)
      rw [show List.find? (fun q => q.1 == e) (q :: qs) =
        List.find? (fun q => q.1 == e) qs from List.find?_cons_of_neg _ hne]
      exact ih hnd.2 htlmem

/-- Invariants of the `shapesprite_maker` loop, by induction on the pending
descriptors: the tessellator resource keeps its behaviour, the registry
grows by exactly one fresh entry per descriptor (handles are the consecutive
ids starting at the pass's initial counter), well-formedness of the registry
is preserved, and each buffered command matches its own entity's descriptor
(`CmdMatches`). -/
theorem runMaker_spec (pending : List (Entity × ShapeDescriptor)) :
    ∀ (t : Tessellator) (m : Assets) (c : List (Entity × SpriteBundle))
      (t2 : Tessellator) (m2 : Assets),
      runMaker t m pending = Except.ok (c, t2, m2) →
      runsEq t t2 ∧
      m2.nextId = m.nextId + pending.length ∧
      m2.store.length = m.store.length + pending.length ∧
      (∀ p ∈ m.store, p ∈ m2.store) ∧
      (m.WF → m2.WF) ∧
      (c.map fun q => q.2.mesh.id) = List.range' m.nextId pending.length ∧
      List.Forall₂ (CmdMatches t m2 m.nextId) pending c := by
  induction pending with
  | nil =>
    intro t m c t2 m2 h
    simp only [runMaker, Except.ok.injEq, Prod.mk.injEq] at h
    obtain ⟨hc, ht, hm⟩ := h
    subst hc; subst ht; subst hm
    exact ⟨runsEq_refl t, by simp, by simp, fun p hp => hp, id, by simp,
      List.Forall₂.nil⟩
  | cons hd rest ih =>
    obtain ⟨e, d⟩ := hd
    intro t m c t2 m2 h
    simp only [runMaker] at h
    cases hmo : materializeOne t m d with
    | error err =>
      rw [hmo] at h
      exact absurd h (by simp)
    | ok val =>
      obtain ⟨b0, tloop, mloop⟩ := val
      rw [hmo] at h
      have h2 : (match runMaker tloop mloop rest with
          | Except.error err => Except.error err
          | Except.ok (cmds, tess3, meshes3) =>
              Except.ok ((e, b0) :: cmds, tess3, meshes3)) =
          Except.ok (c, t2, m2) := h
      clear h
      cases hr : runMaker tloop mloop rest with
      | error err =>
        rw [hr] at h2
        exact absurd h2 (by simp)
      | ok val2 =>
        obtain ⟨crest, t3, m3⟩ := val2
        rw [hr] at h2
        have h3 : Except.ok ((e, b0) :: crest, t3, m3) =
            Except.ok (c, t2, m2) := h2
        simp only [Except.ok.injEq, Prod.mk.injEq] at h3
        obtain ⟨hc, ht, hm⟩ := h3
        subst hc; subst ht; subst hm
        rw [materializeOne_eq] at hmo
        cases hb : buffersOf t d with
        | error err =>
          rw [hb] at hmo
          exact absurd hmo (by simp)
        | ok bufs =>
          rw [hb] at hmo
          simp only [Except.ok.injEq, Prod.mk.injEq] at hmo
          obtain ⟨hb0, htl, hml⟩ := hmo
          subst hb0; subst htl; subst hml
          obtain ⟨ihRuns, ihNext, ihLen, ihSup, ihWF, ihMap, ihF2⟩ :=
            ih _ _ _ _ _ hr
          refine ⟨?_, ?_, ?_, ?_, ?_, ?_, ?_⟩
          · exact runsEq_trans (dispatch_runsEq t _ _) ihRuns
          · have h4 : m3.nextId = (m.nextId + 1) + rest.length := ihNext
            simp only [List.length_cons]
            omega
          · have h5 : m3.store.length =
                (m.store ++ [(m.nextId, build_mesh bufs)]).length + rest.length := ihLen
            rw [List.length_append] at h5
            simp only [List.length_cons, List.length_nil] at h5
            simp only [List.length_cons]
            omega
          · intro p hp
            exact ihSup p (List.mem_append_left _ hp)
          · intro hwf
            exact ihWF (Assets.add_WF hwf (build_mesh bufs))
          · simp only [List.map_cons, List.length_cons]
            rw [List.range'_succ, ihMap]
          · refine List.Forall₂.cons ?_ ?_
            · refine ⟨rfl, bufs, hb, rfl, rfl, rfl, rfl, ?_, Nat.le_refl _⟩
              exact ihSup _ (List.mem_append_right _ (List.mem_singleton.mpr rfl))
            · refine List.Forall₂.imp (fun a b hab => ?_) ihF2
              exact CmdMatches_weaken (dispatch_runsEq t _ _) (Nat.le_succ _) hab

end BevyLyon

namespace BevyLyon

/-- Applying commands changes no entity ids and no enumeration order. -/
theorem applyCommands_fst (cmds : List (Entity × SpriteBundle)) (w : World) :
    (applyCommands cmds w).map Prod.fst = w.map Prod.fst := by
  unfold applyCommands
  rw [List.map_map]
  apply List.map_congr_left
  intro a _
  cases hf : cmds.find? (fun c => c.1 == a.1) <;> simp [hf, Function.comp]

theorem applyCommands_mem {cmds : List (Entity × SpriteBundle)} {w : World}
    {e : Entity} {st : EntityState} (h : (e, st) ∈ w) :
    (match cmds.find? (fun c => c.1 == e) with
     | some c => (e, { st with bundle := some c.2, descriptor := none })
     | none => (e, st)) ∈ applyCommands cmds w :=
  List.mem_map_of_mem _ h

/-- An entity with a buffered command receives the bundle and loses the
descriptor in the applied world. -/
theorem applyCommands_mem_found {cmds : List (Entity × SpriteBundle)} {w : World}
    {e : Entity} {st : EntityState} {c0 : Entity × SpriteBundle}
    (hmem : (e, st) ∈ w) (hf : cmds.find? (fun c => c.1 == e) = some c0) :
    (e, { st with bundle := some c0.2, descriptor := none }) ∈
      applyCommands cmds w := by
  have h0 := @applyCommands_mem cmds _ _ _ hmem
  rw [hf] at h0
  exact h0

/-- An entity with no buffered command is untouched by the applied world. -/
theorem applyCommands_mem_notfound {cmds : List (Entity × SpriteBundle)}
    {w : World} {e : Entity} {st : EntityState}
    (hmem : (e, st) ∈ w) (hf : cmds.find? (fun c => c.1 == e) = none) :
    (e, st) ∈ applyCommands cmds w := by
  have h0 := @applyCommands_mem cmds _ _ _ hmem
  rw [hf] at h0
  exact h0

/-- Decomposing a successful pass into its loop run and command
application. -/
theorem shapesprite_maker_ok_parts {t : Tessellator} {m : Assets} {w : World}
    {w2 : World} {t2 : Tessellator} {m2 : Assets}
    (h : shapesprite_maker t m w = Except.ok (w2, t2, m2)) :
    ∃ c, runMaker t m (queryDescriptors w) = Except.ok (c, t2, m2) ∧
      w2 = applyCommands c w := by
  unfold shapesprite_maker at h
  cases hr : runMaker t m (queryDescriptors w) with
  | error e =>
    rw [hr] at h
    exact absurd h (by simp)
  | ok val =>
    obtain ⟨c, t3, m3⟩ := val
    rw [hr] at h
    have h3 : Except.ok (applyCommands c w, t3, m3) =
        Except.ok (w2, t2, m2) := h
    simp only [Except.ok.injEq, Prod.mk.injEq] at h3
    obtain ⟨hw, ht, hm⟩ := h3
    subst hw; subst ht; subst hm
    exact ⟨c, rfl, rfl⟩

/-- A successful pass preserves the entity list and its order. -/
theorem maker_ok_fst {t : Tessellator} {m : Assets} {w : World} {w2 : World}
    {t2 : Tessellator} {m2 : Assets}
    (h : shapesprite_maker t m w = Except.ok (w2, t2, m2)) :
    w2.map Prod.fst = w.map Prod.fst := by
  obtain ⟨c, _, hw2⟩ := shapesprite_maker_ok_parts h
  rw [hw2]
  exact applyCommands_fst c w

/-- The per-entity effect of a successful pass on a descriptor-holding
entity: its state entry is replaced, atomically, by one holding a bundle and
no descriptor; the bundle copies the descriptor's material and transform,
has the hard-coded unit sprite size, and its mesh handle — fresh with
respect to the registry at the start of the pass — resolves in the final
registry to exactly the mesh built from the entity's own tessellated
geometry. -/
theorem maker_ok_entity {t : Tessellator} {m : Assets} {w : World} {w2 : World}
    {t2 : Tessellator} {m2 : Assets}
    (hwf : m.WF) (hnd : (w.map Prod.fst).Nodup)
    (h : shapesprite_maker t m w = Except.ok (w2, t2, m2))
    {e : Entity} {st : EntityState} {d : ShapeDescriptor}
    (hmem : (e, st) ∈ w) (hd : st.descriptor = some d) :
    ∃ b bufs,
      (e, { st with bundle := some b, descriptor := none }) ∈ w2 ∧
      buffersOf t d = Except.ok bufs ∧
      b.material = d.material ∧ b.transform = d.transform ∧
      b.sprite = ⟨⟨1, 1⟩, 0⟩ ∧ b.rest = 0 ∧
      m2.get b.mesh = some (build_mesh bufs) ∧
      m.nextId ≤ b.mesh.id := by
  obtain ⟨c, hr, hw2⟩ := shapesprite_maker_ok_parts h
  obtain ⟨_, _, _, _, ihWF, _, ihF2⟩ := runMaker_spec _ _ _ _ _ _ hr
  have hpnd : ((queryDescriptors w).map Prod.fst).Nodup :=
    List.Nodup.sublist (queryDescriptors_fst_sublist w) hnd
  have hpend : (e, d) ∈ queryDescriptors w :=
    mem_queryDescriptors.mpr ⟨st, hmem, hd⟩
  obtain ⟨b, hfind, hcm⟩ := forall₂_find_of_nodup ihF2 hpnd hpend
  obtain ⟨_, bufs, hb, hmat, htr, hsp, hrest, hstore, hlo⟩ := hcm
  refine ⟨b, bufs, ?_, hb, hmat, htr, hsp, hrest, ?_, hlo⟩
  · rw [hw2]
    exact applyCommands_mem_found hmem hfind
  · exact Assets.get_of_mem (ihWF hwf) hstore

/-- A successful pass leaves every descriptor-free entity entry exactly as
it was. -/
theorem maker_ok_untouched {t : Tessellator} {m : Assets} {w : World}
    {w2 : World} {t2 : Tessellator} {m2 : Assets}
    (hnd : (w.map Prod.fst).Nodup)
    (h : shapesprite_maker t m w = Except.ok (w2, t2, m2))
    {e : Entity} {st : EntityState}
    (hmem : (e, st) ∈ w) (hd : st.descriptor = none) : (e, st) ∈ w2 := by
  obtain ⟨c, hr, hw2⟩ := shapesprite_maker_ok_parts h
  obtain ⟨_, _, _, _, _, _, ihF2⟩ := runMaker_spec _ _ _ _ _ _ hr
  have hfind : c.find? (fun q => q.1 == e) = none := by
    rw [List.find?_eq_none]
    intro q hq hbeq
    obtain ⟨p, hp, hcm⟩ := forall₂_mem_right ihF2 hq
    have hqe : p.1 = e := by
      rw [← hcm.1]
      simpa using hbeq
    have hp2 : (e, p.2) ∈ queryDescriptors w := by
      rw [← hqe]
      exact hp
    obtain ⟨st2, hmem2, hd2⟩ := mem_queryDescriptors.mp hp2
    have : st = st2 := pair_eq_of_nodup_fst hnd hmem hmem2
    rw [← this] at hd2
    rw [hd] at hd2
    cases hd2
  rw [hw2]
  exact applyCommands_mem_notfound hmem hfind

/-- A successful pass never attaches a descriptor: any entity entry of the
resulting world that still holds a descriptor was already in the starting
world, unchanged. -/
theorem maker_ok_no_new_descriptor {t : Tessellator} {m : Assets} {w : World}
    {w2 : World} {t2 : Tessellator} {m2 : Assets}
    (h : shapesprite_maker t m w = Except.ok (w2, t2, m2))
    {e : Entity} {st : EntityState} {d : ShapeDescriptor}
    (hmem : (e, st) ∈ w2) (hd : st.descriptor = some d) : (e, st) ∈ w := by
  obtain ⟨c, _, hw2⟩ := shapesprite_maker_ok_parts h
  subst hw2
  unfold applyCommands at hmem
  rcases List.mem_map.mp hmem with ⟨y, hy, hxy⟩
  cases hf : c.find? (fun cc => cc.1 == y.1) with
  | some c0 =>
    rw [hf] at hxy
    exfalso
    injection hxy with h1 h2
    rw [← h2] at hd
    cases hd
  | none =>
    rw [hf] at hxy
    rw [← hxy]
    exact hy

end BevyLyon

namespace BevyLyon

/-- C1 (counterexample): with entity 0 holding a degenerate descriptor and
entity 1 holding a healthy descriptor (its own tessellation succeeds), the
pass does not materialize entity 1: the `.unwrap()` panic on entity 0's
`TessellationError` aborts the whole `shapesprite_maker` run, which
produces an error instead of any updated world — so the failure is not a
reported, per-entity recoverable error and the other pending entity is not
materialized, contrary to the claim. -/
theorem failure_abort_counterexample :
    buffersOf tEx dEx = Except.ok bufFillEx ∧
    (1, ⟨some dEx, none, 2⟩) ∈ wErrEx ∧
    buffersOf tEx dDegEx = Except.error ⟨7⟩ ∧
    shapesprite_maker tEx mEx wErrEx = Except.error ⟨7⟩ :=
  ⟨rfl, by decide, rfl, rfl⟩

/-- C1 (amended): a `TessellationError` while processing any one entity's
`ShapeDescriptor` aborts the entire materialization pass (the `.unwrap()`
at plugin.rs lines 113/123 panics): `shapesprite_maker` yields an error and
no updated world, so no pending entity — not even one whose own
tessellation would succeed — is materialized, and the failure is a pass
abort rather than a reported per-entity recoverable error. -/
theorem tessellation_failure_aborts_whole_pass {t : Tessellator} {m : Assets}
    {w : World} {e : Entity} {d : ShapeDescriptor} {err : TessellationError}
    (hmem : (e, d) ∈ queryDescriptors w)
    (herr : buffersOf t d = Except.error err) :
    ∃ err2, shapesprite_maker t m w = Except.error err2 := by
  unfold shapesprite_maker
  cases hr : runMaker t m (queryDescriptors w) with
  | error e2 => exact ⟨e2, rfl⟩
  | ok val =>
    obtain ⟨c, t3, m3⟩ := val
    exfalso
    obtain ⟨_, _, _, _, _, _, ihF2⟩ := runMaker_spec _ _ _ _ _ _ hr
    obtain ⟨q, hq, hcm⟩ := forall₂_mem_left ihF2 hmem
    obtain ⟨_, bufs, hb, _⟩ := hcm
    rw [herr] at hb
    cases hb

/-- C1 (witness): on the sample world the degenerate entity is pending, its
tessellation fails, and the amended theorem applies. -/
theorem tessellation_failure_aborts_whole_pass_witness :
    (0, dDegEx) ∈ queryDescriptors wErrEx ∧
    buffersOf tEx dDegEx = Except.error ⟨7⟩ ∧
    ∃ err2, shapesprite_maker tEx mEx wErrEx = Except.error err2 :=
  ⟨by decide, rfl,
    @tessellation_failure_aborts_whole_pass tEx mEx wErrEx 0 dDegEx ⟨7⟩
      (by decide) rfl⟩

/-- C2: after a completed (non-panicking) materialization pass, every entity
that held a `ShapeDescriptor` before the pass holds none afterwards and
holds exactly one `SpriteBundle`, whose mesh handle resolves in the final
registry; the entity's entry in the resulting world is unique, and the pass
never re-attaches a descriptor (any descriptor-holding entry of the
resulting world is an untouched entry of the starting world), so the
Unmaterialized-to-Materialized transition is one-shot and never reversed. -/
theorem descriptor_consumed_exactly_once {t : Tessellator} {m : Assets}
    {w w2 : World} {t2 : Tessellator} {m2 : Assets}
    (hwf : m.WF) (hnd : (w.map Prod.fst).Nodup)
    (h : shapesprite_maker t m w = Except.ok (w2, t2, m2))
    {e : Entity} {st : EntityState} {d : ShapeDescriptor}
    (hmem : (e, st) ∈ w) (hd : st.descriptor = some d) :
    ∃ st2, (e, st2) ∈ w2 ∧
      st2.descriptor = none ∧
      (∃ b, st2.bundle = some b ∧ (m2.get b.mesh).isSome = true) ∧
      (∀ st3, (e, st3) ∈ w2 → st3 = st2) ∧
      (∀ e3 st3 d3, (e3, st3) ∈ w2 → st3.descriptor = some d3 →
        (e3, st3) ∈ w) := by
  obtain ⟨b, bufs, hmem2, hb, hmat, htr, hsp, hrest, hget, hlo⟩ :=
    maker_ok_entity hwf hnd h hmem hd
  refine ⟨{ st with bundle := some b, descriptor := none }, hmem2, rfl,
    ⟨b, rfl, ?_⟩, ?_, ?_⟩
  · rw [hget]
    rfl
  · intro st3 hst3
    have hfst : (w2.map Prod.fst).Nodup := by
      rw [maker_ok_fst h]
      exact hnd
    exact pair_eq_of_nodup_fst hfst hst3 hmem2
  · intro e3 st3 d3 hmem3 hd3
    exact maker_ok_no_new_descriptor h hmem3 hd3

/-- C2 (witness): the theorem evaluated on the sample pass, at entity 0. -/
theorem descriptor_consumed_exactly_once_witness :
    mEx.WF ∧ (wEx.map Prod.fst).Nodup ∧
    shapesprite_maker tEx mEx wEx = Except.ok (wOutEx, tOutEx, mOutEx) ∧
    (0, ⟨some dEx, none, 11⟩) ∈ wEx ∧
    (∃ st2, (0, st2) ∈ wOutEx ∧
      st2.descriptor = none ∧
      (∃ b, st2.bundle = some b ∧ (mOutEx.get b.mesh).isSome = true) ∧
      (∀ st3, (0, st3) ∈ wOutEx → st3 = st2) ∧
      (∀ e3 st3 d3, (e3, st3) ∈ wOutEx → st3.descriptor = some d3 →
        (e3, st3) ∈ wEx)) := by
  have hwf : mEx.WF := ⟨by decide, by decide⟩
  refine ⟨hwf, by decide, rfl, by decide, ?_⟩
  exact @descriptor_consumed_exactly_once tEx mEx wEx wOutEx tOutEx mOutEx
    hwf (by decide) rfl 0 ⟨some dEx, none, 11⟩ dEx (by decide) rfl

/-- C3: the materializer dispatches on the descriptor's `TessellationMode`:
`Fill(options)` routes the path to the fill tessellator's `tessellate_path`
and `Stroke(options)` to the stroke tessellator's, in each case forwarding
the very options carried in the mode and leaving the other engine
untouched. -/
theorem tessellation_mode_dispatch (t : Tessellator) (p : Path)
    (fo : FillOptions) (so : StrokeOptions) :
    (tessellateDispatch t p (.Fill fo)).1 = (t.fill.tessellate_path p fo).1 ∧
    (tessellateDispatch t p (.Fill fo)).2.stroke = t.stroke ∧
    (tessellateDispatch t p (.Stroke so)).1 = (t.stroke.tessellate_path p so).1 ∧
    (tessellateDispatch t p (.Stroke so)).2.fill = t.fill :=
  ⟨rfl, rfl, rfl, rfl⟩

/-- C4: `draw(material, mode, transform)` returns a descriptor whose shape
field is the (value-semantics) clone of the receiver shape and whose
material, mode and transform fields equal the arguments; `draw` is a pure
function of the receiver and its arguments — it threads no state and so
mutates nothing. -/
theorem draw_builds_descriptor_from_args (s : ShapeSprite)
    (material : ColorMaterialHandle) (mode : TessellationMode)
    (transform : Transform) :
    (s.draw material mode transform).shape = s ∧
    (s.draw material mode transform).material = material ∧
    (s.draw material mode transform).mode = mode ∧
    (s.draw material mode transform).transform = transform :=
  ⟨rfl, rfl, rfl, rfl⟩

/-- C5: for every entity materialized by a completed pass, the attached
bundle carries the material and the transform taken unchanged from that
entity's descriptor (the values supplied at draw time), the freshly
registered mesh handle (new with respect to the registry at the start of
the pass, resolving to the mesh built from the entity's tessellated
geometry) and the default sizing; the descriptor is removed in the same
entry update that attaches the bundle. -/
theorem bundle_fields_from_descriptor {t : Tessellator} {m : Assets}
    {w w2 : World} {t2 : Tessellator} {m2 : Assets}
    (hwf : m.WF) (hnd : (w.map Prod.fst).Nodup)
    (h : shapesprite_maker t m w = Except.ok (w2, t2, m2))
    {e : Entity} {st : EntityState} {d : ShapeDescriptor}
    (hmem : (e, st) ∈ w) (hd : st.descriptor = some d) :
    ∃ b bufs,
      (e, { st with bundle := some b, descriptor := none }) ∈ w2 ∧
      b.material = d.material ∧
      b.transform = d.transform ∧
      b.sprite = ⟨⟨1, 1⟩, 0⟩ ∧
      buffersOf t d = Except.ok bufs ∧
      m2.get b.mesh = some (build_mesh bufs) ∧
      m.nextId ≤ b.mesh.id := by
  obtain ⟨b, bufs, hmem2, hb, hmat, htr, hsp, hrest, hget, hlo⟩ :=
    maker_ok_entity hwf hnd h hmem hd
  exact ⟨b, bufs, hmem2, hmat, htr, hsp, hb, hget, hlo⟩

/-- C5 (witness): the theorem evaluated on the sample pass, at entity 2. -/
theorem bundle_fields_from_descriptor_witness :
    shapesprite_maker tEx mEx wEx = Except.ok (wOutEx, tOutEx, mOutEx) ∧
    (2, ⟨some dEx, none, 33⟩) ∈ wEx ∧
    (∃ b bufs,
      (2, { descriptor := none, bundle := some b, other := 33 }) ∈ wOutEx ∧
      b.material = dEx.material ∧
      b.transform = dEx.transform ∧
      b.sprite = ⟨⟨1, 1⟩, 0⟩ ∧
      buffersOf tEx dEx = Except.ok bufs ∧
      mOutEx.get b.mesh = some (build_mesh bufs) ∧
      mEx.nextId ≤ b.mesh.id) := by
  refine ⟨rfl, by decide, ?_⟩
  exact @bundle_fields_from_descriptor tEx mEx wEx wOutEx tOutEx mOutEx
    ⟨by decide, by decide⟩ (by decide) rfl 2 ⟨some dEx, none, 33⟩ dEx
    (by decide) rfl

end BevyLyon

namespace BevyLyon

/-- C6: the geometry attached to an entity by a completed pass depends only
on that entity's own descriptor: for any two enumeration orders of the same
entities (worlds that are permutations of each other), both passes resolve
the entity's bundle handle to the very same mesh — the one built from the
buffers tessellated from the entity's own shape and mode with the pass's
initial engine behaviour. -/
theorem mesh_contents_order_independent {t : Tessellator} {m : Assets}
    {w1 w2 : World} {wa : World} {ta : Tessellator} {ma : Assets}
    {wb : World} {tb : Tessellator} {mb : Assets}
    (hperm : List.Perm w1 w2) (hwf : m.WF) (hnd1 : (w1.map Prod.fst).Nodup)
    (ha : shapesprite_maker t m w1 = Except.ok (wa, ta, ma))
    (hb : shapesprite_maker t m w2 = Except.ok (wb, tb, mb))
    {e : Entity} {st : EntityState} {d : ShapeDescriptor}
    (hmem : (e, st) ∈ w1) (hd : st.descriptor = some d) :
    ∃ bufs b1 b2,
      buffersOf t d = Except.ok bufs ∧
      (e, { st with bundle := some b1, descriptor := none }) ∈ wa ∧
      (e, { st with bundle := some b2, descriptor := none }) ∈ wb ∧
      ma.get b1.mesh = some (build_mesh bufs) ∧
      mb.get b2.mesh = some (build_mesh bufs) := by
  have hnd2 : (w2.map Prod.fst).Nodup := ((hperm.map Prod.fst).nodup_iff).mp hnd1
  have hmem2 : (e, st) ∈ w2 := hperm.mem_iff.mp hmem
  obtain ⟨b1, bufs, hma, hb1, _, _, _, _, hget1, _⟩ :=
    maker_ok_entity hwf hnd1 ha hmem hd
  obtain ⟨b2, bufs2, hmb, hb2, _, _, _, _, hget2, _⟩ :=
    maker_ok_entity hwf hnd2 hb hmem2 hd
  have hbeq : bufs2 = bufs := by
    rw [hb1] at hb2
    injection hb2 with h0
    exact h0.symm
  rw [hbeq] at hget2
  exact ⟨bufs, b1, b2, hb1, hma, hmb, hget1, hget2⟩

/-- C6 (witness): the sample world and its reversed enumeration, evaluated
at entity 0: both passes resolve its bundle to the same mesh contents. -/
theorem mesh_contents_order_independent_witness :
    List.Perm wEx wRevEx ∧
    shapesprite_maker tEx mEx wEx = Except.ok (wOutEx, tOutEx, mOutEx) ∧
    shapesprite_maker tEx mEx wRevEx = Except.ok (wOutRevEx, tOutEx, mOutEx) ∧
    (∃ bufs b1 b2,
      buffersOf tEx dEx = Except.ok bufs ∧
      (0, { descriptor := none, bundle := some b1, other := 11 }) ∈ wOutEx ∧
      (0, { descriptor := none, bundle := some b2, other := 11 }) ∈ wOutRevEx ∧
      mOutEx.get b1.mesh = some (build_mesh bufs) ∧
      mOutEx.get b2.mesh = some (build_mesh bufs)) := by
  refine ⟨by decide, rfl, rfl, ?_⟩
  exact @mesh_contents_order_independent tEx mEx wEx wRevEx wOutEx tOutEx mOutEx
    wOutRevEx tOutEx mOutEx (by decide) ⟨by decide, by decide⟩ (by decide)
    rfl rfl 0 ⟨some dEx, none, 11⟩ dEx (by decide) rfl

/-- C7: a completed pass is a no-op on every entity holding no
`ShapeDescriptor`: the entity's entry — all its components — is still in the
resulting world unchanged, and (with duplicate-free entity ids) it is the
only entry for that entity, so nothing was added, removed or modified. -/
theorem no_descriptor_entity_untouched {t : Tessellator} {m : Assets}
    {w w2 : World} {t2 : Tessellator} {m2 : Assets}
    (hnd : (w.map Prod.fst).Nodup)
    (h : shapesprite_maker t m w = Except.ok (w2, t2, m2))
    {e : Entity} {st : EntityState}
    (hmem : (e, st) ∈ w) (hd : st.descriptor = none) :
    (e, st) ∈ w2 ∧ ∀ st3, (e, st3) ∈ w2 → st3 = st := by
  have h1 := maker_ok_untouched hnd h hmem hd
  refine ⟨h1, fun st3 hst3 => ?_⟩
  have hfst : (w2.map Prod.fst).Nodup := by
    rw [maker_ok_fst h]
    exact hnd
  exact pair_eq_of_nodup_fst hfst hst3 h1

/-- C7 (witness): the theorem evaluated on the sample pass at entity 1,
which holds no descriptor. -/
theorem no_descriptor_entity_untouched_witness :
    shapesprite_maker tEx mEx wEx = Except.ok (wOutEx, tOutEx, mOutEx) ∧
    (1, ⟨none, none, 22⟩) ∈ wEx ∧
    ((1, (⟨none, none, 22⟩ : EntityState)) ∈ wOutEx ∧
      ∀ st3, (1, st3) ∈ wOutEx → st3 = ⟨none, none, 22⟩) := by
  refine ⟨rfl, by decide, ?_⟩
  exact @no_descriptor_entity_untouched tEx mEx wEx wOutEx tOutEx mOutEx
    (by decide) rfl 1 ⟨none, none, 22⟩ (by decide) rfl

/-- C8: `generate_path` is a pure function of the shape value, so two calls
on identical shape state yield the identical `Path`; and tessellating that
path twice in sequence with the same mode — or after any interleaved
sequence of other tessellation calls — produces identical geometry buffers:
the engines' surviving scratch state never changes a later result. -/
theorem tessellation_deterministic (s : ShapeSprite) (mode : TessellationMode)
    (t : Tessellator) (calls : List (Path × TessellationMode)) :
    (tessellateDispatch ((tessellateDispatch t s.generate_path mode).2)
        s.generate_path mode).1 =
      (tessellateDispatch t s.generate_path mode).1 ∧
    (tessellateDispatch (tessellateMany t calls) s.generate_path mode).1 =
      (tessellateDispatch t s.generate_path mode).1 :=
  ⟨dispatch_fst_congr (dispatch_runsEq t _ _) _ _,
   dispatch_fst_congr (tessellateMany_runsEq t calls) _ _⟩

/-- C9: every bundle attached by a completed pass carries the hard-coded
unit sprite size `Vec2::new(1.0, 1.0)` — for any shape, mode and transform,
not derived from the tessellated geometry. -/
theorem sprite_size_hardcoded_unit {t : Tessellator} {m : Assets}
    {w w2 : World} {t2 : Tessellator} {m2 : Assets}
    (hwf : m.WF) (hnd : (w.map Prod.fst).Nodup)
    (h : shapesprite_maker t m w = Except.ok (w2, t2, m2))
    {e : Entity} {st : EntityState} {d : ShapeDescriptor}
    (hmem : (e, st) ∈ w) (hd : st.descriptor = some d) :
    ∃ b, (e, { st with bundle := some b, descriptor := none }) ∈ w2 ∧
      b.sprite.size = ⟨1, 1⟩ := by
  obtain ⟨b, bufs, hmem2, _, _, _, hsp, _, _, _⟩ :=
    maker_ok_entity hwf hnd h hmem hd
  refine ⟨b, hmem2, ?_⟩
  rw [hsp]

/-- C9 (witness): the theorem evaluated on the sample pass at entity 0. -/
theorem sprite_size_hardcoded_unit_witness :
    shapesprite_maker tEx mEx wEx = Except.ok (wOutEx, tOutEx, mOutEx) ∧
    (∃ b, (0, { descriptor := none, bundle := some b, other := 11 }) ∈ wOutEx ∧
      b.sprite.size = ⟨1, 1⟩) := by
  refine ⟨rfl, ?_⟩
  exact @sprite_size_hardcoded_unit tEx mEx wEx wOutEx tOutEx mOutEx
    ⟨by decide, by decide⟩ (by decide) rfl 0 ⟨some dEx, none, 11⟩ dEx
    (by decide) rfl

/-- C10: every descriptor processed by a completed pass registers its own
new mesh asset: two distinct entities — even with identical shape, mode and
transform — receive distinct mesh handles, each handle is fresh (absent from
the registry as it stood before the pass), and the registry grows by exactly
one entry per processed descriptor, so meshes are never shared or
deduplicated. -/
theorem mesh_handles_fresh_and_distinct {t : Tessellator} {m : Assets}
    {w w2 : World} {t2 : Tessellator} {m2 : Assets}
    (hwf : m.WF) (hnd : (w.map Prod.fst).Nodup)
    (h : shapesprite_maker t m w = Except.ok (w2, t2, m2))
    {e1 : Entity} {st1 : EntityState} {d1 : ShapeDescriptor}
    {e2 : Entity} {st2 : EntityState} {d2 : ShapeDescriptor}
    (hm1 : (e1, st1) ∈ w) (hd1 : st1.descriptor = some d1)
    (hm2 : (e2, st2) ∈ w) (hd2 : st2.descriptor = some d2)
    (hne : e1 ≠ e2) :
    ∃ b1 b2,
      (e1, { st1 with bundle := some b1, descriptor := none }) ∈ w2 ∧
      (e2, { st2 with bundle := some b2, descriptor := none }) ∈ w2 ∧
      b1.mesh ≠ b2.mesh ∧
      m.get b1.mesh = none ∧ m.get b2.mesh = none ∧
      m2.store.length = m.store.length + (queryDescriptors w).length := by
  obtain ⟨c, hr, hw2⟩ := shapesprite_maker_ok_parts h
  obtain ⟨_, _, ihLen, _, _, ihMap, ihF2⟩ := runMaker_spec _ _ _ _ _ _ hr
  have hpnd : ((queryDescriptors w).map Prod.fst).Nodup :=
    List.Nodup.sublist (queryDescriptors_fst_sublist w) hnd
  have hp1 : (e1, d1) ∈ queryDescriptors w :=
    mem_queryDescriptors.mpr ⟨st1, hm1, hd1⟩
  have hp2 : (e2, d2) ∈ queryDescriptors w :=
    mem_queryDescriptors.mpr ⟨st2, hm2, hd2⟩
  obtain ⟨b1, hfind1, hcm1⟩ := forall₂_find_of_nodup ihF2 hpnd hp1
  obtain ⟨b2, hfind2, hcm2⟩ := forall₂_find_of_nodup ihF2 hpnd hp2
  have hmemc1 : (e1, b1) ∈ c := List.mem_of_find?_eq_some hfind1
  have hmemc2 : (e2, b2) ∈ c := List.mem_of_find?_eq_some hfind2
  have hndg : (c.map fun q => q.2.mesh.id).Nodup := by
    rw [ihMap]
    exact List.nodup_range' _ _ 1 Nat.one_pos
  obtain ⟨_, bufs1, _, _, _, _, _, _, hlo1⟩ := hcm1
  obtain ⟨_, bufs2, _, _, _, _, _, _, hlo2⟩ := hcm2
  refine ⟨b1, b2, ?_, ?_, ?_, ?_, ?_, ihLen⟩
  · rw [hw2]
    exact applyCommands_mem_found hm1 hfind1
  · rw [hw2]
    exact applyCommands_mem_found hm2 hfind2
  · intro heq
    have hid : b1.mesh.id = b2.mesh.id := congrArg MeshHandle.id heq
    have hpair : (e1, b1) = (e2, b2) :=
      List.inj_on_of_nodup_map hndg hmemc1 hmemc2 hid
    injection hpair with hh1 hh2
    exact hne hh1
  · exact Assets.get_none_of_ge hwf.1 hlo1
  · exact Assets.get_none_of_ge hwf.1 hlo2

/-- C10 (witness): the theorem evaluated on the sample pass at entities 0
and 2, which hold identical descriptors yet receive distinct, fresh
handles; the registry grows by one entry per processed descriptor. -/
theorem mesh_handles_fresh_and_distinct_witness :
    shapesprite_maker tEx mEx wEx = Except.ok (wOutEx, tOutEx, mOutEx) ∧
    (∃ b1 b2,
      (0, { descriptor := none, bundle := some b1, other := 11 }) ∈ wOutEx ∧
      (2, { descriptor := none, bundle := some b2, other := 33 }) ∈ wOutEx ∧
      b1.mesh ≠ b2.mesh ∧
      mEx.get b1.mesh = none ∧ mEx.get b2.mesh = none ∧
      mOutEx.store.length = mEx.store.length +
        (queryDescriptors wEx).length) := by
  refine ⟨rfl, ?_⟩
  exact @mesh_handles_fresh_and_distinct tEx mEx wEx wOutEx tOutEx mOutEx
    ⟨by decide, by decide⟩ (by decide) rfl 0 ⟨some dEx, none, 11⟩ dEx
    2 ⟨some dEx, none, 33⟩ dEx (by decide) rfl (by decide) rfl (by decide)

end BevyLyon
